import Mathlib

/-!
Verification development for the pytui repository.

Part 1 embeds the color module (src/colortxt/colors.py and
src/colortxt/txt.py): the pure rendering function tint, the ColorStr and
StrGroup text-run model, and the operations the specification talks about.

Part 2 embeds the filesystem module (src/filesystem.py): the path
canonicalization used for equality, the delete / read / write wrappers as
functions of an abstract OS environment, and the bottom-up directory walk.

Python strings are modeled as Lean String values; optional attribute
arguments (which default to None in the source) are modeled as Option
String, and the Python truthiness test used by tint is modeled explicitly.
-/

/-- Foreground color constants of class FG in colors.py. In the source each
constant is an escape fragment that already starts with a semicolon. -/
inductive FGColor where
  | black | red | green | yellow | blue | violet | cyan | white
deriving DecidableEq

/-- Values of the FG constants exactly as written in colors.py. -/
def fgVal : FGColor → String
  | .black => ";30"
  | .red => ";31"
  | .green => ";32"
  | .yellow => ";33"
  | .blue => ";34"
  | .violet => ";35"
  | .cyan => ";36"
  | .white => ";37"

/-- Background color constants of class BG in colors.py. -/
inductive BGColor where
  | black | red | green | yellow | blue | violet | cyan | white
deriving DecidableEq

/-- Values of the BG constants exactly as written in colors.py. -/
def bgVal : BGColor → String
  | .black => ";40"
  | .red => ";41"
  | .green => ";42"
  | .yellow => ";43"
  | .blue => ";44"
  | .violet => ";45"
  | .cyan => ";46"
  | .white => ";47"

/-- Emphasis constants of class Style in colors.py. -/
inductive StyleKind where
  | styleDefault | bold | underline | reverseVideo
deriving DecidableEq

/-- Values of the Style constants exactly as written in colors.py. Unlike
the FG and BG constants, these carry no leading semicolon. -/
def styleVal : StyleKind → String
  | .styleDefault => "0"
  | .bold => "1"
  | .underline => "4"
  | .reverseVideo => "7"

/-- Bare numeric attribute code of a foreground color (the digits of the
corresponding FG constant, without its leading semicolon). -/
def fgCode : FGColor → String
  | .black => "30"
  | .red => "31"
  | .green => "32"
  | .yellow => "33"
  | .blue => "34"
  | .violet => "35"
  | .cyan => "36"
  | .white => "37"

/-- Bare numeric attribute code of a background color. -/
def bgCode : BGColor → String
  | .black => "40"
  | .red => "41"
  | .green => "42"
  | .yellow => "43"
  | .blue => "44"
  | .violet => "45"
  | .cyan => "46"
  | .white => "47"

/-- Bare numeric attribute code of an emphasis (identical to the Style
constant itself, which has no semicolon in the source). -/
def styleCode : StyleKind → String
  | .styleDefault => "0"
  | .bold => "1"
  | .underline => "4"
  | .reverseVideo => "7"

/-- Contribution of one optional attribute argument inside tint. The source
guards each write with a Python truthiness test (if style: ...), so None
and the empty string contribute nothing. -/
def pyTruthy : Option String → String
  | none => ""
  | some s => if s = "" then "" else s

/-- Translation of tint from colors.py, with the stream writes of its
helper (which tint delegates to over an in-memory string buffer) folded
into one string: ESC and bracket, then the style, fg and bg arguments when
truthy in that order, then the letter m, the text, and the reset suffix. -/
def tint (text : String) (fg bg style : Option String) : String :=
  "\x1b[" ++ pyTruthy style ++ pyTruthy fg ++ pyTruthy bg ++ "m" ++ text ++ "\x1b[0m"

/-- Rendering of one optional attribute as asserted by the specification
text for claim C1: every present attribute code is preceded by its own
semicolon, an absent attribute contributes nothing. -/
def optSemi : Option String → String
  | none => ""
  | some c => ";" ++ c

/-- Rendering of one optional attribute written bare: a present code is
written as is, an absent attribute contributes nothing. -/
def optBare : Option String → String
  | none => ""
  | some c => c

/-- Escape-sequence format claimed by C1 (modeled from the words of the
specification, for comparison against tint): prefix, then the present
attribute codes in the order emphasis, foreground, background, each
preceded by its own semicolon, then m, the text and the reset suffix. -/
def claimRenderC1 (text : String) (fg : Option FGColor) (bg : Option BGColor)
    (st : Option StyleKind) : String :=
  "\x1b[" ++ optSemi (st.map styleCode) ++ optSemi (fg.map fgCode) ++
    optSemi (bg.map bgCode) ++ "m" ++ text ++ "\x1b[0m"

/-- ColorStr from txt.py: a text run together with its three optional
style attributes. -/
structure ColorStr where
  txt : String
  fg : Option String := none
  bg : Option String := none
  style : Option String := none
deriving DecidableEq

/-- ColorStr.get from txt.py: renders the run through tint. -/
def ColorStr.get (c : ColorStr) : String :=
  tint c.txt c.fg c.bg c.style

/-- Python string repetition s * n for a nonnegative count, as used by
ColorStr.__mul__: n copies of s concatenated. -/
def pyStrMul (s : String) : Nat → String
  | 0 => ""
  | n + 1 => s ++ pyStrMul s n

/-- ColorStr.__mul__ from txt.py: a new ColorStr with the text repeated
and the same fg, bg and style. -/
def ColorStr.mul (c : ColorStr) (times : Nat) : ColorStr :=
  ⟨pyStrMul c.txt times, c.fg, c.bg, c.style⟩

/-- One fragment of a StrGroup: either a styled run or a plain string,
mirroring the ColorStr | str item type in txt.py. -/
inductive Frag where
  | colored (c : ColorStr)
  | plain (s : String)
deriving DecidableEq

/-- StrGroup from txt.py: an ordered list of fragments. -/
structure StrGroup where
  items : List Frag
deriving DecidableEq

/-- ColorStr.__add__ from txt.py: builds a StrGroup holding exactly the
two operands in order. -/
def ColorStr.add (c : ColorStr) (other : Frag) : StrGroup :=
  ⟨[Frag.colored c, other]⟩

/-- Render of one fragment as performed inside StrGroup.get: a ColorStr
item is rendered through its get method, a plain string passes through. -/
def fragRender : Frag → String
  | .colored c => c.get
  | .plain s => s

/-- Unstyled text of one fragment as collected by StrGroup.__str__. -/
def fragRaw : Frag → String
  | .colored c => c.txt
  | .plain s => s

/-- Length of one fragment as counted by StrGroup.__len__ (the Python len
of a ColorStr is the length of its unstyled text). -/
def fragLen : Frag → Nat
  | .colored c => c.txt.length
  | .plain s => s.length

/-- StrGroup.get from txt.py: writes each rendered fragment in order to a
string buffer. -/
def StrGroup.get (g : StrGroup) : String :=
  g.items.foldl (fun acc it => acc ++ fragRender it) ""

/-- StrGroup.__str__ from txt.py: writes each unstyled fragment text in
order to a string buffer. -/
def StrGroup.str (g : StrGroup) : String :=
  g.items.foldl (fun acc it => acc ++ fragRaw it) ""

/-- StrGroup.__len__ from txt.py: sums the fragment lengths. -/
def StrGroup.len (g : StrGroup) : Nat :=
  g.items.foldl (fun acc it => acc + fragLen it) 0

/-- StrGroup.append from txt.py (list append at the end). -/
def StrGroup.append (g : StrGroup) (f : Frag) : StrGroup :=
  ⟨g.items ++ [f]⟩

/-- StrGroup.add_head from txt.py (list insert at index 0). -/
def StrGroup.addHead (g : StrGroup) (f : Frag) : StrGroup :=
  ⟨f :: g.items⟩

/-- StrGroup.insert from txt.py for a nonnegative index: the Python list
insert places the item before position i, clamping an out-of-range index
to the end. -/
def StrGroup.insertAt (g : StrGroup) (i : Nat) (f : Frag) : StrGroup :=
  ⟨g.items.take i ++ f :: g.items.drop i⟩

/-- One structural mutation of a StrGroup, as enumerated by claim C4. -/
inductive GOp where
  | app (f : Frag)
  | head (f : Frag)
  | ins (i : Nat) (f : Frag)

/-- Apply one mutation. -/
def applyOp (g : StrGroup) : GOp → StrGroup
  | .app f => g.append f
  | .head f => g.addHead f
  | .ins i f => g.insertAt i f

/-- Apply a whole sequence of mutations in order. -/
def applyOps (g : StrGroup) (ops : List GOp) : StrGroup :=
  ops.foldl applyOp g

/-- Concatenation of a list of strings in order. -/
def strConcat : List String → String
  | [] => ""
  | s :: rest => s ++ strConcat rest

/-- Split a character list on the slash character, keeping empty pieces,
as the Python str split on a single slash does inside normpath. The second
argument accumulates the current piece in reverse. -/
def splitOnSlash : List Char → List Char → List (List Char)
  | [], cur => [cur.reverse]
  | c :: rest, cur =>
    if c = '/' then cur.reverse :: splitOnSlash rest []
    else splitOnSlash rest (c :: cur)

/-- Number of leading slashes that posixpath.normpath preserves: one for an
absolute path, two for a path starting with exactly two slashes, zero for a
relative path. -/
def countInitSlashes : List Char → Nat
  | '/' :: '/' :: '/' :: _ => 1
  | '/' :: '/' :: _ => 2
  | '/' :: _ => 1
  | _ => 0

/-- Component loop of posixpath.normpath: empty and single-dot components
are dropped; a double-dot component pops the previous component unless the
path is relative with nothing collected yet or the previous component is
itself a double dot; the accumulator holds components in reverse. -/
def normLoop (hasRoot : Bool) : List (List Char) → List (List Char) → List (List Char)
  | [], acc => acc.reverse
  | comp :: rest, acc =>
    if comp = [] ∨ comp = ['.'] then normLoop hasRoot rest acc
    else if comp ≠ ['.', '.'] ∨ (¬ hasRoot = true ∧ acc = []) ∨ acc.head? = some ['.', '.'] then
      normLoop hasRoot rest (comp :: acc)
    else normLoop hasRoot rest acc.tail

/-- Join components with single slashes. -/
def intercalateSlash : List (List Char) → List Char
  | [] => []
  | [c] => c
  | c :: rest => c ++ '/' :: intercalateSlash rest

/-- Model of posixpath.normpath, the canonicalization os.path.abspath
applies on a POSIX host: collapse empty and dot components, resolve double
dots, keep the preserved leading slashes, and fall back to a single dot
for an empty result. -/
def normpath (path : String) : String :=
  if path = "" then "." else
  let slashes := countInitSlashes path.data
  let comps := normLoop (slashes != 0) (splitOnSlash path.data []) []
  let joined := List.replicate slashes '/' ++ intercalateSlash comps
  if joined = [] then "." else ⟨joined⟩

/-- Model of posixpath.isabs: the path starts with a slash. -/
def isabs (p : String) : Bool :=
  p.data.head? == some '/'

/-- Model of posixpath.join for two arguments: an absolute second argument
replaces the first; otherwise a slash is added unless the first argument is
empty or already ends with a slash. -/
def pjoin (a b : String) : String :=
  if isabs b then b
  else if a = "" ∨ a.data.getLast? = some '/' then a ++ b
  else a ++ "/" ++ b

/-- Model of os.path.abspath on a POSIX host with an explicit working
directory: join a relative path onto the working directory, then
normalize. -/
def abspath (cwd path : String) : String :=
  if isabs path then normpath path else normpath (pjoin cwd path)

/-- Model of ntpath.join for two arguments, restricted to a second argument
that is relative and carries no drive letter, which is the only way the
repository calls it (joining a listing name onto a directory path): a
backslash is added unless the first argument is empty or already ends with
a separator or a colon. -/
def ntjoin (a b : String) : String :=
  if a = "" then b
  else if a.data.getLast? = some '\\' ∨ a.data.getLast? = some '/' ∨ a.data.getLast? = some ':' then
    a ++ b
  else a ++ "\\" ++ b

/-- Common representation of the Pathable, File and Directory objects of
filesystem.py: the raw path string and the absolute path computed from the
working directory at construction time. -/
structure PathableR where
  path : String
  absPath : String
deriving DecidableEq

/-- Constructor of Pathable (shared by File and Directory): stores the raw
path and its absolute form. -/
def mkPathable (cwd p : String) : PathableR :=
  ⟨p, abspath cwd p⟩

/-- Runtime class of the right operand of an equality comparison, which
the source inspects with isinstance: a raw string, a File, a Directory, or
anything else. -/
inductive PyObj where
  | pstr (s : String)
  | pfile (f : PathableR)
  | pdir (d : PathableR)
deriving DecidableEq

/-- Translation of Pathable.__eq__ from filesystem.py (File.__eq__ is the
identical code, and Directory inherits the Pathable one): a string operand
is compared through abspath, a File operand through its stored absolute
path, and every other operand — a Directory included — falls through to
False. -/
def pathableEq (cwd : String) (self : PathableR) (other : PyObj) : Bool :=
  match other with
  | .pstr s => self.absPath == abspath cwd s
  | .pfile f => self.absPath == f.absPath
  | .pdir _ => false

/-- One node of a modeled directory tree: a file name or a subdirectory
name with its entries, in listing order. -/
inductive FSNode where
  | file (name : String)
  | dir (name : String) (entries : List FSNode)

/-- Names of the plain files among a list of entries, in listing order. -/
def fileNamesOf (ns : List FSNode) : List String :=
  ns.filterMap fun n =>
    match n with
    | .file nm => some nm
    | .dir _ _ => none

/-- Bottom-up walk of the subdirectories of a listing, as os.walk with
topdown set to False performs it: for each subdirectory in listing order,
first its own bottom-up walk, then its (root, filenames) entry. Roots are
joined with os.path.join, which is posixpath.join on a POSIX host. -/
def osWalkSubs (top : String) : List FSNode → List (String × List String)
  | [] => []
  | .file _ :: rest => osWalkSubs top rest
  | .dir nm es :: rest =>
      (osWalkSubs (pjoin top nm) es ++ [(pjoin top nm, fileNamesOf es)]) ++ osWalkSubs top rest
termination_by ns => sizeOf ns
decreasing_by all_goals (simp_wf <;> omega)

/-- Model of os.walk(top, topdown=False) over a modeled tree: the walks of
all subdirectories bottom-up, then the entry of the top directory itself.
Directory name lists are omitted because Directory.walking only reads the
file names of each entry. -/
def osWalkBU (top : String) (ns : List FSNode) : List (String × List String) :=
  osWalkSubs top ns ++ [(top, fileNamesOf ns)]

/-- Body of the loop in Directory.walking for one (root, filenames) entry:
each name is joined onto the root with ntpath.join, wrapped as a File, and
kept when the predicate accepts it. -/
def walkF (cwd : String) (when : PathableR → Bool) (rf : String × List String) :
    List PathableR :=
  rf.2.filterMap fun name =>
    if when (mkPathable cwd (ntjoin rf.1 name)) then some (mkPathable cwd (ntjoin rf.1 name))
    else none

/-- Translation of Directory.walking from filesystem.py: iterate the
bottom-up os.walk entries and yield the accepted files of each entry. -/
def walking (cwd top : String) (ns : List FSNode) (when : PathableR → Bool) :
    List PathableR :=
  (osWalkBU top ns).flatMap (walkF cwd when)

/-- Files yielded for the top listing itself (the last os.walk entry). -/
def ownFiles (cwd top : String) (when : PathableR → Bool) (ns : List FSNode) :
    List PathableR :=
  walkF cwd when (top, fileNamesOf ns)

/-- Concatenation, in listing order, of the full walks of the
subdirectories of a listing. -/
def dirWalks (cwd top : String) (when : PathableR → Bool) : List FSNode → List PathableR
  | [] => []
  | .file _ :: rest => dirWalks cwd top when rest
  | .dir nm es :: rest => walking cwd (pjoin top nm) es when ++ dirWalks cwd top when rest

/-- Abstract outcome environment for the delete wrappers: what the OS
predicates answer at each path and whether the removal calls succeed. -/
structure OSEnv where
  pathExists : String → Bool
  isfile : String → Bool
  isdir : String → Bool
  unlinkOk : String → Bool
  rmdirOk : String → Bool

/-- Translation of File.delete from filesystem.py: a missing target is a
success; an existing file is unlinked and a raised unlink error is caught
and turned into False; an existing non-file target is False. -/
def fileDelete (env : OSEnv) (path : String) : Bool :=
  if env.pathExists path then
    if env.isfile path then
      if env.unlinkOk path then true else false
    else false
  else true

/-- Translation of Directory.delete from filesystem.py, symmetric to
File.delete with rmdir in place of unlink. -/
def dirDelete (env : OSEnv) (path : String) : Bool :=
  if env.pathExists path then
    if env.isdir path then
      if env.rmdirOk path then true else false
    else false
  else true

/-- Abstract outcome environment for the read wrappers: whether a path is
a regular file and what opening and reading it yields — a content string
or a raised OS error. -/
structure ReadEnv where
  isfile : String → Bool
  openRead : String → Except String String

/-- Translation of File.read from filesystem.py: opens and reads the whole
file; nothing is caught, so the outcome of the OS call surfaces directly
to the caller. -/
def fileRead (env : ReadEnv) (p : String) : Except String String :=
  env.openRead p

/-- Translation of File.try_read from filesystem.py: when the path is a
regular file, read it and catch any raised error into the fallback;
otherwise return the fallback. -/
def tryRead (env : ReadEnv) (p : String) (fallback : Option String) : Option String :=
  if env.isfile p then
    match env.openRead p with
    | .ok content => some content
    | .error _ => fallback
  else fallback

/-- Persistent filesystem state for the write path of the model: the files
with their contents (most recent write first) and the set of directories.
-/
structure FSState where
  files : List (String × String)
  dirs : List String
deriving DecidableEq

/-- Content of a file in the state: the most recent write wins. -/
def lookupFile : List (String × String) → String → Option String
  | [], _ => none
  | (k, v) :: rest, p => if k = p then some v else lookupFile rest p

/-- Membership of a path in the directory set. -/
def memStr : List String → String → Bool
  | [], _ => false
  | d :: rest, p => if d = p then true else memStr rest p

/-- Model of os.path.exists over the state: the path is a directory or a
file. -/
def pathExistsFS (fs : FSState) (p : String) : Bool :=
  memStr fs.dirs p || (lookupFile fs.files p).isSome

/-- Head of posixpath.split: everything up to and including the last
slash, with trailing slashes stripped unless the head is empty or consists
only of slashes. This is the parent path File.ensure passes on. -/
def posixSplitHead (p : String) : String :=
  let cs := p.data
  let tailLen := (cs.reverse.takeWhile (fun c => c != '/')).length
  let head := cs.take (cs.length - tailLen)
  if head.isEmpty || head.all (fun c => c == '/') then ⟨head⟩
  else ⟨(head.reverse.dropWhile (fun c => c == '/')).reverse⟩

/-- Translation of Directory.ensure from filesystem.py over the state: an
existing path answers whether it is a directory; a missing path is created
as a directory (ancestors are immaterial to the claims and omitted). -/
def dirEnsure (fs : FSState) (d : String) : FSState × Bool :=
  if pathExistsFS fs d then (fs, memStr fs.dirs d)
  else ({ fs with dirs := d :: fs.dirs }, true)

/-- Translation of File.ensure from filesystem.py: ensure the parent
directory, where the parent is the head of posixpath.split. -/
def fileEnsure (fs : FSState) (p : String) : FSState × Bool :=
  dirEnsure fs (posixSplitHead p)

/-- Translation of File.write from filesystem.py with its default mode w:
opening for writing truncates, so the new content simply replaces whatever
was stored at the path. -/
def fileWriteFS (fs : FSState) (p content : String) : FSState :=
  { fs with files := (p, content) :: fs.files }

/-- Translation of Directory.createfi from filesystem.py for one name
part: join the name onto the directory path with ntpath.join, ensure the
parent of the joined path, then write the empty string in mode w. -/
def createfi (fs : FSState) (dpath nm : String) : FSState × String :=
  let fpath := ntjoin dpath nm
  let fs1 := (fileEnsure fs fpath).1
  (fileWriteFS fs1 fpath "", fpath)

/-- Concrete read environment with one readable file, used to exercise the
read wrappers on explicit inputs. -/
def cReadEnv : ReadEnv :=
  ⟨fun q => decide (q = "data.txt"),
   fun q => if q = "data.txt" then Except.ok "hello" else Except.error "ENOENT"⟩

/-!
Helper lemmas shared by the claim theorems.
-/

/-- Folding string appends from an initial buffer writes the buffer first
and then the concatenation of the mapped pieces. -/
theorem foldlAppend (f : Frag → String) (l : List Frag) :
    ∀ init : String, l.foldl (fun acc it => acc ++ f it) init = init ++ strConcat (l.map f) := by
  induction l with
  | nil => intro init; exact (String.append_empty init).symm
  | cons x xs ih =>
    intro init
    simp only [List.foldl_cons, List.map_cons, strConcat, ih, String.append_assoc]

/-- Folding length additions from an initial total adds the total to the
sum of the mapped lengths. -/
theorem foldlAdd (f : Frag → Nat) (l : List Frag) :
    ∀ init : Nat, l.foldl (fun acc it => acc + f it) init = init + (l.map f).sum := by
  induction l with
  | nil => intro init; simp
  | cons x xs ih =>
    intro init
    simp only [List.foldl_cons, List.map_cons, List.sum_cons, ih]
    omega

/-- Length of a concatenation is the sum of the lengths. -/
theorem strConcatLength (l : List String) :
    (strConcat l).length = (l.map String.length).sum := by
  induction l with
  | nil => rfl
  | cons x xs ih => simp [strConcat, String.length_append, ih]

/-- Python string repetition equals the concatenation of n copies. -/
theorem pyStrMulEq (s : String) (n : Nat) :
    pyStrMul s n = strConcat (List.replicate n s) := by
  induction n with
  | zero => rfl
  | succ k ih => simp [pyStrMul, List.replicate, strConcat, ih]

/-- The truthy write of a present FG constant is its numeric code preceded
by its own semicolon, since the constant embeds the semicolon. -/
theorem pyTruthyFg (fg : Option FGColor) :
    pyTruthy (fg.map fgVal) = optSemi (fg.map fgCode) := by
  cases fg with
  | none => rfl
  | some c => cases c <;> rfl

/-- The truthy write of a present BG constant is its numeric code preceded
by its own semicolon. -/
theorem pyTruthyBg (bg : Option BGColor) :
    pyTruthy (bg.map bgVal) = optSemi (bg.map bgCode) := by
  cases bg with
  | none => rfl
  | some c => cases c <;> rfl

/-- The truthy write of a present Style constant is its numeric code with
no semicolon at all. -/
theorem pyTruthySt (st : Option StyleKind) :
    pyTruthy (st.map styleVal) = optBare (st.map styleCode) := by
  cases st with
  | none => rfl
  | some c => cases c <;> rfl

/-- Keeping the image of an element exactly when a predicate accepts it is
mapping followed by filtering. -/
theorem filterMapIf {α β : Type} (g : α → β) (p : β → Bool) (l : List α) :
    (l.filterMap fun x => if p (g x) then some (g x) else none) = (l.map g).filter p := by
  induction l with
  | nil => rfl
  | cons x xs ih =>
    by_cases h : p (g x) = true
    · simp [List.filterMap_cons, List.filter_cons, h, ih]
    · simp only [Bool.not_eq_true] at h
      simp [List.filterMap_cons, List.filter_cons, h, ih]

/-- Filtering distributes over flat-mapping. -/
theorem filterFlatMap {α β : Type} (p : β → Bool) (F : α → List β) (l : List α) :
    (l.flatMap F).filter p = l.flatMap fun x => (F x).filter p := by
  induction l with
  | nil => rfl
  | cons x xs ih => simp [List.flatMap_cons, List.filter_append, ih]

/-- The per-entry yield with the always-true predicate is the list of all
files of the entry. -/
theorem walkFAll (cwd : String) (rf : String × List String) :
    walkF cwd (fun _ => true) rf = rf.2.map fun name => mkPathable cwd (ntjoin rf.1 name) := by
  unfold walkF
  simp only [if_pos]
  exact List.filterMap_eq_map_iff_forall_eq_some.mpr fun x _ => rfl

/-- The per-entry yield with a predicate is the unfiltered per-entry yield
filtered by that predicate. -/
theorem walkFFilter (cwd : String) (when : PathableR → Bool) (rf : String × List String) :
    walkF cwd when rf = (walkF cwd (fun _ => true) rf).filter when := by
  rw [walkFAll]
  unfold walkF
  rw [filterMapIf]

/-- Flat-mapping the per-entry yield over the bottom-up subdirectory walk
gives the concatenation of the full walks of the subdirectories. -/
theorem osWalkSubsFlatMap (cwd : String) (when : PathableR → Bool) (top : String)
    (ns : List FSNode) :
    (osWalkSubs top ns).flatMap (walkF cwd when) = dirWalks cwd top when ns := by
  induction ns with
  | nil => simp [osWalkSubs, dirWalks]
  | cons x rest ih =>
    cases x with
    | file nm => simp only [osWalkSubs, dirWalks, ih]
    | dir nm es =>
      simp only [osWalkSubs, dirWalks, walking, osWalkBU, List.flatMap_append, ih,
        List.flatMap_cons, List.flatMap_nil, List.append_nil, List.append_assoc]

/-!
Claim theorems.
-/

/-- Claim C1, counterexample: the escape sequence format asserted by the
claim — every present attribute code preceded by its own semicolon — does
not match tint on the input text x with only the emphasis attribute
present (the Style constant Bold, whose source value is the bare string
1): tint yields the sequence ESC[1m while the claimed format yields
ESC[;1m. -/
theorem tint_claim_counterexample :
    tint "x" none none (some (styleVal StyleKind.bold)) ≠
      claimRenderC1 "x" none none (some StyleKind.bold) := by
  decide

/-- Claim C1, amended: for every text and every combination of present or
absent enumerated attributes, tint returns exactly the escape prefix, then
the present attribute codes in the fixed order emphasis, foreground,
background — the foreground and background codes each preceded by their
own semicolon, the emphasis code written bare — then m, the text, and the
reset suffix; an absent attribute contributes no characters at all. -/
theorem tint_format_amended (text : String) (fg : Option FGColor) (bg : Option BGColor)
    (st : Option StyleKind) :
    tint text (fg.map fgVal) (bg.map bgVal) (st.map styleVal) =
      "\x1b[" ++ optBare (st.map styleCode) ++ optSemi (fg.map fgCode) ++
        optSemi (bg.map bgCode) ++ "m" ++ text ++ "\x1b[0m" := by
  simp only [tint, pyTruthyFg, pyTruthyBg, pyTruthySt]

/-- Claim C2: for every text and style, the rendered output of tint (and
of ColorStr.get, which delegates to tint) contains the text as an exact
contiguous substring, begins with the escape prefix and ends with the
reset suffix; and with all three attributes absent the result is exactly
the bare escape marker, the text, and the reset suffix. -/
theorem tint_render_structure (t : String) (fg bg st : Option String) :
    (∃ pre post, tint t fg bg st = pre ++ (t ++ post))
  ∧ (∃ rest, tint t fg bg st = "\x1b[" ++ rest)
  ∧ (∃ pre, tint t fg bg st = pre ++ "\x1b[0m")
  ∧ (ColorStr.mk t fg bg st).get = tint t fg bg st
  ∧ tint t none none none = "\x1b[m" ++ t ++ "\x1b[0m" := by
  refine ⟨⟨"\x1b[" ++ pyTruthy st ++ pyTruthy fg ++ pyTruthy bg ++ "m", "\x1b[0m", ?_⟩,
    ⟨pyTruthy st ++ (pyTruthy fg ++ (pyTruthy bg ++ ("m" ++ (t ++ "\x1b[0m")))), ?_⟩,
    ⟨"\x1b[" ++ pyTruthy st ++ pyTruthy fg ++ pyTruthy bg ++ "m" ++ t, rfl⟩, rfl, ?_⟩
  · exact String.append_assoc _ t _
  · simp only [tint, String.append_assoc]
  · rfl

/-- Claim C3: concatenating a ColorStr with another ColorStr (any styles,
equal or not) or with a plain string produces a StrGroup holding exactly
the two operands in order — the styles are kept on their own runs and
never merged — whose raw text is the concatenation of the raw texts and
whose render is the concatenation of the renders of the operands. -/
theorem colorStr_add_group (A B : String) (f1 b1 s1 f2 b2 s2 : Option String) :
    ((ColorStr.mk A f1 b1 s1).add (Frag.colored (ColorStr.mk B f2 b2 s2))).items =
        [Frag.colored (ColorStr.mk A f1 b1 s1), Frag.colored (ColorStr.mk B f2 b2 s2)]
  ∧ ((ColorStr.mk A f1 b1 s1).add (Frag.colored (ColorStr.mk B f2 b2 s2))).str = A ++ B
  ∧ ((ColorStr.mk A f1 b1 s1).add (Frag.colored (ColorStr.mk B f2 b2 s2))).get =
        (ColorStr.mk A f1 b1 s1).get ++ (ColorStr.mk B f2 b2 s2).get
  ∧ ((ColorStr.mk A f1 b1 s1).add (Frag.plain B)).items =
        [Frag.colored (ColorStr.mk A f1 b1 s1), Frag.plain B]
  ∧ ((ColorStr.mk A f1 b1 s1).add (Frag.plain B)).str = A ++ B
  ∧ ((ColorStr.mk A f1 b1 s1).add (Frag.plain B)).get =
        (ColorStr.mk A f1 b1 s1).get ++ B :=
  ⟨rfl, rfl, rfl, rfl, rfl, rfl⟩

/-- Claim C4: whatever sequence of append, add_head and insert operations
built a StrGroup, its render is the concatenation in list order of each
fragment render, its raw text is the concatenation of the fragment raw
texts, and its length is the sum of the fragment raw-text lengths — equal
to the length of the raw text, so escape codes are excluded from the
count. -/
theorem strGroup_invariant (g : StrGroup) (ops : List GOp) :
    (applyOps g ops).get = strConcat ((applyOps g ops).items.map fragRender)
  ∧ (applyOps g ops).str = strConcat ((applyOps g ops).items.map fragRaw)
  ∧ (applyOps g ops).len = ((applyOps g ops).items.map fragLen).sum
  ∧ (applyOps g ops).len = (applyOps g ops).str.length := by
  have hget : ∀ h : StrGroup, h.get = strConcat (h.items.map fragRender) := fun h =>
    (foldlAppend fragRender h.items "").trans (String.empty_append _)
  have hstr : ∀ h : StrGroup, h.str = strConcat (h.items.map fragRaw) := fun h =>
    (foldlAppend fragRaw h.items "").trans (String.empty_append _)
  have hlen : ∀ h : StrGroup, h.len = (h.items.map fragLen).sum := fun h =>
    (foldlAdd fragLen h.items 0).trans (Nat.zero_add _)
  refine ⟨hget _, hstr _, hlen _, ?_⟩
  rw [hlen _, hstr _, strConcatLength, List.map_map]
  congr 1
  apply List.map_congr_left
  intro f _
  cases f <;> rfl

/-- Claim C9: multiplying a ColorStr by a nonnegative count produces a new
ColorStr whose raw text is the original text repeated that many times
(empty for count zero) and whose fg, bg and style attributes are identical
to the original ones. -/
theorem colorStr_mul_spec (c : ColorStr) (n : Nat) :
    (c.mul n).txt = strConcat (List.replicate n c.txt)
  ∧ (c.mul n).fg = c.fg
  ∧ (c.mul n).bg = c.bg
  ∧ (c.mul n).style = c.style
  ∧ (c.mul 0).txt = "" :=
  ⟨pyStrMulEq c.txt n, rfl, rfl, rfl, rfl⟩

/-- Claim C5, code bug evidence: under the working directory /w, the paths
a/b and ./a/b canonicalize to the same absolute path, yet comparing two
Directory objects built from them returns False, because the equality
method inherited from Pathable recognizes only str and File operands and
answers False for a Directory operand; comparing the same object against a
File or a raw string does canonicalize as the claim describes. -/
theorem directory_eq_code_bug :
    (mkPathable "/w" "a/b").absPath = (mkPathable "/w" "./a/b").absPath
  ∧ pathableEq "/w" (mkPathable "/w" "a/b") (PyObj.pdir (mkPathable "/w" "./a/b")) = false
  ∧ pathableEq "/w" (mkPathable "/w" "a/b") (PyObj.pfile (mkPathable "/w" "./a/b")) = true
  ∧ pathableEq "/w" (mkPathable "/w" "a/b") (PyObj.pstr "./a/b") = true := by
  decide

/-- Claim C6: walking a modeled directory tree with a predicate yields
exactly the files accepted by the predicate — the unfiltered walk filtered
by it, with membership characterized accordingly — and yields them in
bottom-up order: all files found inside the subdirectories of a listing,
in listing order, come before the files of the listing itself. Two calls
over an unchanged tree are the same pure function application and so yield
the same list. -/
theorem walking_spec (cwd top : String) (ns : List FSNode) (when : PathableR → Bool) :
    walking cwd top ns when = (walking cwd top ns (fun _ => true)).filter when
  ∧ walking cwd top ns when = dirWalks cwd top when ns ++ ownFiles cwd top when ns
  ∧ (∀ f, f ∈ walking cwd top ns when ↔
      f ∈ walking cwd top ns (fun _ => true) ∧ when f = true) := by
  have hfun : walkF cwd when = fun rf => (walkF cwd (fun _ => true) rf).filter when :=
    funext (walkFFilter cwd when)
  have hfilter : walking cwd top ns when = (walking cwd top ns (fun _ => true)).filter when := by
    unfold walking
    rw [hfun, ← filterFlatMap]
  refine ⟨hfilter, ?_, ?_⟩
  · unfold walking osWalkBU
    rw [List.flatMap_append, osWalkSubsFlatMap]
    simp only [List.flatMap_cons, List.flatMap_nil, List.append_nil, ownFiles]
  · intro f
    rw [hfilter]
    exact List.mem_filter

/-- Claim C7: File.delete returns True exactly when the target is missing
(idempotent success) or is an existing file whose unlink succeeds, and
returns False exactly when the target exists and is not a file (type
mismatch) or its unlink fails; Directory.delete is symmetric with rmdir;
both are total functions into booleans, so no exception escapes. -/
theorem delete_spec (env : OSEnv) (p : String) :
    (fileDelete env p = true ↔
      env.pathExists p = false ∨ (env.isfile p = true ∧ env.unlinkOk p = true))
  ∧ (fileDelete env p = false ↔
      env.pathExists p = true ∧ (env.isfile p = false ∨ env.unlinkOk p = false))
  ∧ (dirDelete env p = true ↔
      env.pathExists p = false ∨ (env.isdir p = true ∧ env.rmdirOk p = true))
  ∧ (dirDelete env p = false ↔
      env.pathExists p = true ∧ (env.isdir p = false ∨ env.rmdirOk p = false)) := by
  cases hE : env.pathExists p <;> cases hF : env.isfile p <;> cases hU : env.unlinkOk p <;>
    cases hD : env.isdir p <;> cases hR : env.rmdirOk p <;>
      simp [fileDelete, dirDelete, hE, hF, hU, hD, hR]

/-- Claim C8: try_read returns the content when the path is a regular file
whose read succeeds, and returns the caller-supplied fallback when the
path is not a regular file or the read raises, never propagating the
error; plain read performs no catching, so the raised OS error surfaces
unchanged to the caller. -/
theorem try_read_spec (env : ReadEnv) (p : String) (fb : Option String) :
    (∀ c, env.isfile p = true → env.openRead p = Except.ok c → tryRead env p fb = some c)
  ∧ (env.isfile p = false → tryRead env p fb = fb)
  ∧ (∀ e, env.openRead p = Except.error e → tryRead env p fb = fb)
  ∧ (∀ e, env.openRead p = Except.error e → fileRead env p = Except.error e) := by
  refine ⟨?_, ?_, ?_, ?_⟩
  · intro c hf hr
    simp [tryRead, hf, hr]
  · intro hf
    simp [tryRead, hf]
  · intro e hr
    cases hf : env.isfile p <;> simp [tryRead, hf, hr]
  · intro e hr
    simpa [fileRead] using hr

/-- Witness for claim C8 at a concrete environment: the file data.txt
reads as its content, a missing path falls back, and the plain read of the
missing path surfaces the OS error. -/
theorem try_read_spec_witness :
    tryRead cReadEnv "data.txt" (some "fb") = some "hello"
  ∧ tryRead cReadEnv "missing.txt" (some "fb") = some "fb"
  ∧ fileRead cReadEnv "missing.txt" = Except.error "ENOENT" :=
  ⟨(try_read_spec cReadEnv "data.txt" (some "fb")).1 "hello" (by decide) rfl,
   (try_read_spec cReadEnv "missing.txt" (some "fb")).2.1 (by decide),
   (try_read_spec cReadEnv "missing.txt" (some "fb")).2.2.2 "ENOENT" rfl⟩

/-- Claim C10: createfi joins the name onto the directory path, ensures
the parent of the joined path, and writes the empty string in truncating
mode, so afterwards the file at the joined path exists with empty content
whatever was stored there before — a preexisting non-empty file is
truncated, not preserved; and a previously missing parent directory is
present afterwards. -/
theorem createfi_spec (fs : FSState) (dpath nm : String) :
    lookupFile (createfi fs dpath nm).1.files (ntjoin dpath nm) = some ""
  ∧ (pathExistsFS fs (posixSplitHead (ntjoin dpath nm)) = false →
      memStr (createfi fs dpath nm).1.dirs (posixSplitHead (ntjoin dpath nm)) = true) := by
  constructor
  · simp [createfi, fileWriteFS, lookupFile]
  · intro h
    simp [createfi, fileWriteFS, fileEnsure, dirEnsure, h, memStr]

/-- Witness for claim C10 at a concrete state: the directory /w/d and name
f join to a path that previously stored the non-empty content hello, and
after createfi the stored content is empty and the previously missing
parent directory exists. -/
theorem createfi_spec_witness :
    lookupFile (createfi ⟨[("/w/d\\f", "hello")], []⟩ "/w/d" "f").1.files
        (ntjoin "/w/d" "f") = some ""
  ∧ memStr (createfi ⟨[("/w/d\\f", "hello")], []⟩ "/w/d" "f").1.dirs
        (posixSplitHead (ntjoin "/w/d" "f")) = true :=
  ⟨(createfi_spec ⟨[("/w/d\\f", "hello")], []⟩ "/w/d" "f").1,
   (createfi_spec ⟨[("/w/d\\f", "hello")], []⟩ "/w/d" "f").2 (by decide)⟩
